import Mathlib

/-!
Verification of the `emit` package's `Ticker` (file `ticker.go`): a
resettable, drop-tolerant periodic timer built around a capacity-one
buffered channel, a swappable underlying `time.Ticker`, and a control
loop that serializes reset/stop commands against clock fires.

The embedding is a sequential state machine. The control loop's state
(`Ticker`) is stepped by the events it can receive (`Event`); every
handler additionally records the observable actions it performs
(`Act`), so ordering claims can be stated about the emitted trace.
Go-level faults — a send on a closed channel (panic), a send with no
buffer room (the loop would block), and `time.NewTicker` on a negative
interval (panic) — are surfaced through `Except Fault`.
-/

/-- Timestamps carried by ticks (`time.Time`), modelled abstractly. -/
abbrev Time := Nat

/-- `time.Duration`: a signed integer count of nanoseconds. -/
abbrev Duration := Int

/-- `TickerConfig` allows Ticker startup customization (three independent
booleans fixed at construction). -/
structure TickerConfig where
  CloseOnStop : Bool
  DropTickOnReset : Bool
  DropTickOnStop : Bool
deriving Repr, DecidableEq

/-- Faults a Go execution of this code can hit: a send on a closed channel
panics, a send without buffer room blocks the sender forever, and
`time.NewTicker` panics on a non-positive (after the zero test: negative)
interval. -/
inductive Fault
  | sendOnClosed
  | sendWouldBlock
  | negativePeriod
deriving Repr, DecidableEq

/-- The ticks channel `c := make(chan time.Time, 1)`: a capacity-one
buffered channel of timestamps together with its closed flag. -/
structure TickChan where
  buf : List Time
  closed : Bool
deriving Repr, DecidableEq

/-- Non-blocking receive `select { case <-t.c: default: }`: removes the
buffered value if one is present, otherwise does nothing. -/
def TickChan.tryRecv (c : TickChan) : TickChan :=
  { c with buf := c.buf.tail }

/-- A send `c <- v` on the capacity-one buffered channel: panics if the
channel is closed, blocks if the buffer is already full, and otherwise
buffers `v`. -/
def TickChan.send (c : TickChan) (v : Time) : Except Fault TickChan :=
  if c.closed then .error .sendOnClosed
  else if c.buf.length < 1 then .ok { c with buf := c.buf ++ [v] }
  else .error .sendWouldBlock

/-- Observable actions of the control loop, recorded as a trace:
draining the slot, closing the ticks channel, stopping/starting an
underlying `time.Ticker` (identified by id), writing a tick into the
slot, and invoking a completion callback (`done()`). -/
inductive Act
  | drainSlot
  | closeChan
  | stopClock (i : Nat)
  | startClock (i : Nat)
  | writeSlot (v : Time)
  | ack
deriving Repr, DecidableEq

/-- The state of a `Ticker` as seen by its control loop. Underlying
`time.Ticker`s are modelled by ids: `ticker` is the handle field
(`none` = `nil`), `live` lists the clocks started and not yet stopped,
and `nextClock` supplies fresh ids. `stopped` records that the control
loop has processed a stop request and returned. -/
structure Ticker where
  c : TickChan
  cfg : TickerConfig
  ticker : Option Nat
  live : List Nat
  nextClock : Nat
  stopped : Bool
deriving Repr, DecidableEq

/-- `drain` drops the unconsumed buffered tick if any. -/
def Ticker.drain (t : Ticker) : Ticker :=
  { t with c := t.c.tryRecv }

/-- `newTicker` (re)creates the internal `time.Ticker`: stops the previous
one if present, then installs `nil` for a zero duration or a freshly
started clock otherwise. `time.NewTicker` panics on a non-positive
duration, which in the non-zero branch means a negative one. -/
def Ticker.newTicker (t : Ticker) (d : Duration) : Except Fault (Ticker × List Act) :=
  let (t1, a1) : Ticker × List Act :=
    match t.ticker with
    | some i => ({ t with live := t.live.erase i }, [Act.stopClock i])
    | none => (t, [])
  if d = 0 then .ok ({ t1 with ticker := none }, a1)
  else if d < 0 then .error .negativePeriod
  else
    let t2 := { t1 with ticker := some t1.nextClock, live := t1.live ++ [t1.nextClock], nextClock := t1.nextClock + 1 }
    .ok (t2, a1 ++ [Act.startClock t1.nextClock])

/-- `handleStop`: optionally drain the slot, optionally close the ticks
channel, release the underlying clock via `newTicker(0)`, then invoke
`done()`; the control loop returns afterwards (`stopped := true`). -/
def Ticker.handleStop (t : Ticker) : Except Fault (Ticker × List Act) := do
  let (t1, a1) := if t.cfg.DropTickOnStop then (t.drain, [Act.drainSlot]) else (t, [])
  let (t2, a2) :=
    if t1.cfg.CloseOnStop then ({ t1 with c := { t1.c with closed := true } }, [Act.closeChan])
    else (t1, [])
  let (t3, a3) ← t2.newTicker 0
  .ok ({ t3 with stopped := true }, a1 ++ a2 ++ a3 ++ [Act.ack])

/-- `handleReset`: optionally drain the slot, replace the underlying clock
via `newTicker(d)`, then invoke `done()`. -/
def Ticker.handleReset (t : Ticker) (d : Duration) : Except Fault (Ticker × List Act) := do
  let (t1, a1) := if t.cfg.DropTickOnReset then (t.drain, [Act.drainSlot]) else (t, [])
  let (t2, a2) ← t1.newTicker d
  .ok (t2, a1 ++ a2 ++ [Act.ack])

/-- The tick branch of `run`: on a fire of the current underlying clock,
`t.drain()` then `t.c <- tick`. -/
def Ticker.handleTick (t : Ticker) (tick : Time) : Except Fault (Ticker × List Act) :=
  let t1 := t.drain
  match t1.c.send tick with
  | .ok c2 => .ok ({ t1 with c := c2 }, [Act.drainSlot, Act.writeSlot tick])
  | .error f => .error f

/-- Events the control loop can receive: a fire of underlying clock `src`,
a reset command, and a stop request. -/
inductive Event
  | clockFired (src : Nat) (tick : Time)
  | resetReq (d : Duration)
  | stopReq
deriving Repr, DecidableEq

/-- One iteration of the control loop on a received event. After the loop
has returned (`stopped`), no event is receivable by it, so the state is
unchanged; a fire of a clock other than the current underlying one is
never selected (`<-t.ticker.C` reads only the current clock), so it is
likewise a no-op. -/
def Ticker.step (t : Ticker) (e : Event) : Except Fault (Ticker × List Act) :=
  if t.stopped then .ok (t, [])
  else
    match e with
    | .stopReq => t.handleStop
    | .resetReq d => t.handleReset d
    | .clockFired src tick =>
        if t.ticker = some src then t.handleTick tick else .ok (t, [])

/-- The control loop over a whole sequence of received events,
concatenating the emitted traces. -/
def Ticker.run (t : Ticker) : List Event → Except Fault (Ticker × List Act)
  | [] => .ok (t, [])
  | e :: es => do
    let (t1, a1) ← t.step e
    let (t2, a2) ← t1.run es
    .ok (t2, a1 ++ a2)

/-- `TickerConfig.NewTicker`: allocate the capacity-one ticks channel,
install the initial underlying clock via `newTicker(d)` (in the caller's
goroutine, before `go t.run()`), and return the ticker. -/
def TickerConfig.NewTicker (cfg : TickerConfig) (d : Duration) : Except Fault Ticker := do
  let t0 : Ticker :=
    { c := { buf := [], closed := false },
      cfg := cfg, ticker := none, live := [], nextClock := 0, stopped := false }
  let (t1, _) ← t0.newTicker d
  .ok t1

/-- `NewTicker` creates a Ticker with the default (zero-value) config. -/
def NewTicker (d : Duration) : Except Fault Ticker :=
  TickerConfig.NewTicker
    { CloseOnStop := false, DropTickOnReset := false, DropTickOnStop := false } d

/-- The public `Reset`: a select racing the stop signal against handing the
command to the control loop, then `wg.Wait()` until the loop's `done()`.
On a stopped ticker the stop case is the only ready one, so `Reset`
returns with no effect; otherwise the command is applied by the loop
before the caller unblocks. -/
def Ticker.Reset (t : Ticker) (d : Duration) : Except Fault (Ticker × List Act) :=
  if t.stopped then .ok (t, [])
  else t.handleReset d

/-- Modelled from the spec: `Stop` delegates to the coordinated-shutdown
collaborator's blocking request-and-wait call (`chia.Shutdown`, a package
not in this repository). The stop signal is single-fire and coordinates
exactly one teardown: the first call triggers the teardown and waits for
its completion; any later call triggers nothing and returns once the
already-finished teardown is done. -/
def Ticker.Stop (t : Ticker) : Except Fault (Ticker × List Act) :=
  if t.stopped then .ok (t, [])
  else t.handleStop

/-- The control-loop invariant: the ticks buffer holds at most one value,
the channel is closed only after the loop has terminated, and the live
underlying clocks are exactly the one held by the handle. -/
def Ticker.Inv (t : Ticker) : Prop :=
  t.c.buf.length ≤ 1 ∧ (t.c.closed = true → t.stopped = true) ∧ t.live = t.ticker.toList

instance (t : Ticker) : Decidable t.Inv := by
  unfold Ticker.Inv; infer_instance

/-- `true` when the event list contains no reset command with a positive
period. -/
def noPositiveReset : List Event → Bool
  | [] => true
  | .resetReq d :: es => decide (d ≤ 0) && noPositiveReset es
  | _ :: es => noPositiveReset es

/-- `true` on the actions that write a tick into the output slot. -/
def Act.isWrite : Act → Bool
  | .writeSlot _ => true
  | _ => false

/-! Derived normal forms of the handlers, used to state the claims. -/

/-- The live-clock list after the `t.ticker.Stop()` prologue of `newTicker`:
the current underlying clock, if any, is removed. -/
def Ticker.eraseCur (t : Ticker) : List Nat :=
  match t.ticker with
  | some i => t.live.erase i
  | none => t.live

/-- The actions of the `t.ticker.Stop()` prologue of `newTicker`. -/
def Ticker.stopCurActs (t : Ticker) : List Act :=
  match t.ticker with
  | some i => [Act.stopClock i]
  | none => []

/-- The state `handleStop` leaves behind: slot optionally drained, channel
optionally closed, underlying clock released, loop terminated. -/
def Ticker.stopState (t : Ticker) : Ticker :=
  { t with
    c := { buf := if t.cfg.DropTickOnStop then t.c.buf.tail else t.c.buf
           closed := if t.cfg.CloseOnStop then true else t.c.closed }
    ticker := none
    live := t.eraseCur
    stopped := true }

/-- The action trace of `handleStop`, in order: the conditional drain, the
conditional close, the release of the underlying clock, the completion
callback. -/
def Ticker.stopTrace (t : Ticker) : List Act :=
  (if t.cfg.DropTickOnStop then [Act.drainSlot] else [])
    ++ (if t.cfg.CloseOnStop then [Act.closeChan] else [])
    ++ t.stopCurActs ++ [Act.ack]

/-! Helper lemmas. -/

lemma tail_eq_nil_of_length_le_one {α : Type} {l : List α} (h : l.length ≤ 1) :
    l.tail = [] := by
  cases l with
  | nil => rfl
  | cons a l =>
    cases l with
    | nil => rfl
    | cons b l => simp [List.length] at h

lemma Ticker.newTicker_zero (t : Ticker) :
    t.newTicker 0 = .ok ({ t with live := t.eraseCur, ticker := none }, t.stopCurActs) := by
  cases h : t.ticker <;>
    simp [Ticker.newTicker, Ticker.eraseCur, Ticker.stopCurActs, h]

lemma Ticker.newTicker_pos (t : Ticker) {d : Int} (h : 0 < d) :
    t.newTicker d =
      .ok ({ t with
             live := t.eraseCur ++ [t.nextClock]
             ticker := some t.nextClock
             nextClock := t.nextClock + 1 },
           t.stopCurActs ++ [Act.startClock t.nextClock]) := by
  have h0 : ¬ d = 0 := by omega
  have h1 : ¬ d < 0 := by omega
  cases hm : t.ticker <;>
    simp [Ticker.newTicker, Ticker.eraseCur, Ticker.stopCurActs, hm, h0, h1]

lemma Ticker.newTicker_neg (t : Ticker) {d : Int} (h : d < 0) :
    t.newTicker d = .error .negativePeriod := by
  have h0 : ¬ d = 0 := by omega
  cases hm : t.ticker <;> simp [Ticker.newTicker, hm, h0, h]

lemma Ticker.handleStop_eq (t : Ticker) :
    t.handleStop = .ok (t.stopState, t.stopTrace) := by
  cases hd : t.cfg.DropTickOnStop <;> cases hc : t.cfg.CloseOnStop <;>
    simp [Ticker.handleStop, Ticker.stopState, Ticker.stopTrace, Ticker.drain,
          TickChan.tryRecv, Ticker.newTicker_zero, Ticker.eraseCur, Ticker.stopCurActs,
          hd, hc, bind, Except.bind]

lemma Ticker.handleReset_zero (t : Ticker) :
    t.handleReset 0 =
      .ok ({ t with
             c := if t.cfg.DropTickOnReset then t.c.tryRecv else t.c
             live := t.eraseCur
             ticker := none },
           (if t.cfg.DropTickOnReset then [Act.drainSlot] else [])
             ++ t.stopCurActs ++ [Act.ack]) := by
  cases hd : t.cfg.DropTickOnReset <;>
    simp [Ticker.handleReset, Ticker.drain, TickChan.tryRecv, Ticker.newTicker_zero,
          Ticker.eraseCur, Ticker.stopCurActs, hd, bind, Except.bind]

lemma Ticker.handleReset_pos (t : Ticker) {d : Int} (h : 0 < d) :
    t.handleReset d =
      .ok ({ t with
             c := if t.cfg.DropTickOnReset then t.c.tryRecv else t.c
             live := t.eraseCur ++ [t.nextClock]
             ticker := some t.nextClock
             nextClock := t.nextClock + 1 },
           (if t.cfg.DropTickOnReset then [Act.drainSlot] else [])
             ++ t.stopCurActs ++ [Act.startClock t.nextClock] ++ [Act.ack]) := by
  cases hd : t.cfg.DropTickOnReset <;>
    simp [Ticker.handleReset, Ticker.drain, TickChan.tryRecv, Ticker.newTicker_pos _ h,
          Ticker.eraseCur, Ticker.stopCurActs, hd, bind, Except.bind]

lemma Ticker.handleReset_neg (t : Ticker) {d : Int} (h : d < 0) :
    t.handleReset d = .error .negativePeriod := by
  cases hd : t.cfg.DropTickOnReset <;>
    simp [Ticker.handleReset, Ticker.newTicker_neg _ h, hd, bind, Except.bind]

lemma Ticker.handleTick_ok (t : Ticker) (tick : Nat)
    (h1 : t.c.buf.length ≤ 1) (h2 : t.c.closed = false) :
    t.handleTick tick =
      .ok ({ t with c := { buf := [tick], closed := false } },
           [Act.drainSlot, Act.writeSlot tick]) := by
  have ht : t.c.buf.tail = [] := tail_eq_nil_of_length_le_one h1
  simp [Ticker.handleTick, Ticker.drain, TickChan.tryRecv, TickChan.send, ht, h2]

lemma Ticker.step_stopped (t : Ticker) (e : Event) (h : t.stopped = true) :
    t.step e = .ok (t, []) := by
  simp [Ticker.step, h]

lemma Ticker.run_stopped (t : Ticker) (evs : List Event) (h : t.stopped = true) :
    t.run evs = .ok (t, []) := by
  induction evs with
  | nil => simp [Ticker.run]
  | cons e es ih =>
    simp [Ticker.run, Ticker.step_stopped t e h, ih, bind, Except.bind]

lemma Ticker.eraseCur_eq_nil {t : Ticker} (h : t.live = t.ticker.toList) :
    t.eraseCur = [] := by
  cases hm : t.ticker <;> rw [hm] at h <;> simp [Ticker.eraseCur, hm, h]

lemma Ticker.stopState_inv {t : Ticker} (h : t.Inv) : t.stopState.Inv := by
  unfold Ticker.Inv at h ⊢
  obtain ⟨h1, h2, h3⟩ := h
  refine ⟨?_, ?_, ?_⟩
  · cases hd : t.cfg.DropTickOnStop <;>
      simp [Ticker.stopState, hd, List.length_tail] <;> omega
  · simp [Ticker.stopState]
  · simp [Ticker.stopState, Ticker.eraseCur_eq_nil h3]

lemma Ticker.step_stopReq (t : Ticker) (h : ¬ t.stopped = true) :
    t.step Event.stopReq = t.handleStop := by
  simp [Ticker.step, h]

lemma Ticker.step_resetReq (t : Ticker) (d : Int) (h : ¬ t.stopped = true) :
    t.step (Event.resetReq d) = t.handleReset d := by
  simp [Ticker.step, h]

lemma Ticker.step_clockFired (t : Ticker) (src : Nat) (tick : Nat)
    (h : ¬ t.stopped = true) :
    t.step (Event.clockFired src tick) =
      if t.ticker = some src then t.handleTick tick else .ok (t, []) := by
  simp [Ticker.step, h]

lemma Ticker.step_inv {t t' : Ticker} {e : Event} {as : List Act}
    (h : t.Inv) (hs : t.step e = .ok (t', as)) : t'.Inv := by
  obtain ⟨h1, h2, h3⟩ := h
  by_cases hstop : t.stopped = true
  · rw [Ticker.step_stopped t e hstop] at hs
    simp only [Except.ok.injEq, Prod.mk.injEq] at hs
    obtain ⟨rfl, rfl⟩ := hs
    exact ⟨h1, h2, h3⟩
  cases e with
  | stopReq =>
    rw [Ticker.step_stopReq t hstop, Ticker.handleStop_eq] at hs
    simp only [Except.ok.injEq, Prod.mk.injEq] at hs
    obtain ⟨rfl, rfl⟩ := hs
    exact Ticker.stopState_inv ⟨h1, h2, h3⟩
  | resetReq d =>
    rw [Ticker.step_resetReq t d hstop] at hs
    rcases lt_trichotomy d 0 with hd | hd | hd
    · rw [Ticker.handleReset_neg _ hd] at hs
      simp at hs
    · subst hd
      rw [Ticker.handleReset_zero] at hs
      simp only [Except.ok.injEq, Prod.mk.injEq] at hs
      obtain ⟨rfl, rfl⟩ := hs
      refine ⟨?_, ?_, ?_⟩
      · cases hr : t.cfg.DropTickOnReset <;>
          simp [hr, TickChan.tryRecv, List.length_tail] <;> omega
      · cases hr : t.cfg.DropTickOnReset <;>
          simp [hr, TickChan.tryRecv] <;> exact h2
      · simp [Ticker.eraseCur_eq_nil h3]
    · rw [Ticker.handleReset_pos _ hd] at hs
      simp only [Except.ok.injEq, Prod.mk.injEq] at hs
      obtain ⟨rfl, rfl⟩ := hs
      refine ⟨?_, ?_, ?_⟩
      · cases hr : t.cfg.DropTickOnReset <;>
          simp [hr, TickChan.tryRecv, List.length_tail] <;> omega
      · cases hr : t.cfg.DropTickOnReset <;>
          simp [hr, TickChan.tryRecv] <;> exact h2
      · simp [Ticker.eraseCur_eq_nil h3]
  | clockFired src tick =>
    rw [Ticker.step_clockFired t src tick hstop] at hs
    by_cases hm : t.ticker = some src
    · have hcl : t.c.closed = false := by
        cases hc : t.c.closed with
        | false => rfl
        | true => exact absurd (h2 hc) hstop
      rw [if_pos hm, Ticker.handleTick_ok t tick h1 hcl] at hs
      simp only [Except.ok.injEq, Prod.mk.injEq] at hs
      obtain ⟨rfl, rfl⟩ := hs
      exact ⟨by simp, by simp, by simpa using h3⟩
    · rw [if_neg hm] at hs
      simp only [Except.ok.injEq, Prod.mk.injEq] at hs
      obtain ⟨rfl, rfl⟩ := hs
      exact ⟨h1, h2, h3⟩

lemma Ticker.run_cons_ok {t t1 : Ticker} {e : Event} {a1 : List Act}
    (h : t.step e = .ok (t1, a1)) (es : List Event) :
    t.run (e :: es) =
      match t1.run es with
      | .ok (t2, a2) => .ok (t2, a1 ++ a2)
      | .error f => .error f := by
  cases hrun : t1.run es with
  | ok r =>
    obtain ⟨t2, a2⟩ := r
    simp [Ticker.run, h, hrun, bind, Except.bind]
  | error f => simp [Ticker.run, h, hrun, bind, Except.bind]

lemma Ticker.run_cons_error {t : Ticker} {e : Event} {f : Fault}
    (h : t.step e = .error f) (es : List Event) :
    t.run (e :: es) = .error f := by
  simp [Ticker.run, h, bind, Except.bind]

lemma Ticker.step_fault {t : Ticker} {e : Event} {f : Fault}
    (h : t.Inv) (hs : t.step e = .error f) : f = .negativePeriod := by
  obtain ⟨h1, h2, h3⟩ := h
  by_cases hstop : t.stopped = true
  · rw [Ticker.step_stopped t e hstop] at hs
    simp at hs
  cases e with
  | stopReq =>
    rw [Ticker.step_stopReq t hstop, Ticker.handleStop_eq] at hs
    simp at hs
  | resetReq d =>
    rw [Ticker.step_resetReq t d hstop] at hs
    rcases lt_trichotomy d 0 with hd | hd | hd
    · rw [Ticker.handleReset_neg _ hd] at hs
      simp only [Except.error.injEq] at hs
      exact hs.symm
    · subst hd
      rw [Ticker.handleReset_zero] at hs
      simp at hs
    · rw [Ticker.handleReset_pos _ hd] at hs
      simp at hs
  | clockFired src tick =>
    rw [Ticker.step_clockFired t src tick hstop] at hs
    by_cases hm : t.ticker = some src
    · have hcl : t.c.closed = false := by
        cases hc : t.c.closed with
        | false => rfl
        | true => exact absurd (h2 hc) hstop
      rw [if_pos hm, Ticker.handleTick_ok t tick h1 hcl] at hs
      simp at hs
    · rw [if_neg hm] at hs
      simp at hs

lemma Ticker.run_fault {t : Ticker} {evs : List Event} {f : Fault}
    (h : t.Inv) (hr : t.run evs = .error f) : f = .negativePeriod := by
  induction evs generalizing t with
  | nil => simp [Ticker.run] at hr
  | cons e es ih =>
    cases hstep : t.step e with
    | error f1 =>
      rw [Ticker.run_cons_error hstep es] at hr
      simp only [Except.error.injEq] at hr
      subst hr
      exact Ticker.step_fault ⟨h.1, h.2.1, h.2.2⟩ hstep
    | ok r =>
      obtain ⟨t1, a1⟩ := r
      rw [Ticker.run_cons_ok hstep es] at hr
      cases hrun : t1.run es with
      | error f2 =>
        rw [hrun] at hr
        simp only [Except.error.injEq] at hr
        subst hr
        exact ih (Ticker.step_inv h hstep) hrun
      | ok r2 =>
        obtain ⟨t2, a2⟩ := r2
        rw [hrun] at hr
        simp at hr

lemma noPositiveReset_cons {e : Event} {es : List Event}
    (h : noPositiveReset (e :: es) = true) :
    (∀ d : Int, e = Event.resetReq d → d ≤ 0) ∧ noPositiveReset es = true := by
  cases e with
  | resetReq d =>
    simp [noPositiveReset] at h
    refine ⟨fun d' hd' => ?_, h.2⟩
    injection hd' with hdd
    subst hdd
    exact h.1
  | stopReq =>
    simp [noPositiveReset] at h
    exact ⟨fun d hd => (nomatch hd), h⟩
  | clockFired src tick =>
    simp [noPositiveReset] at h
    exact ⟨fun d hd => (nomatch hd), h⟩

lemma Ticker.step_paused {t : Ticker} {e : Event} {t1 : Ticker} {a1 : List Act}
    (ht : t.ticker = none)
    (he : ∀ d : Int, e = Event.resetReq d → d ≤ 0)
    (hs : t.step e = .ok (t1, a1)) :
    a1.all (fun a => !a.isWrite) = true ∧ t1.ticker = none := by
  by_cases hstop : t.stopped = true
  · rw [Ticker.step_stopped t e hstop] at hs
    simp only [Except.ok.injEq, Prod.mk.injEq] at hs
    obtain ⟨rfl, rfl⟩ := hs
    exact ⟨rfl, ht⟩
  cases e with
  | stopReq =>
    rw [Ticker.step_stopReq t hstop, Ticker.handleStop_eq] at hs
    simp only [Except.ok.injEq, Prod.mk.injEq] at hs
    obtain ⟨rfl, rfl⟩ := hs
    constructor
    · cases hd : t.cfg.DropTickOnStop <;> cases hc : t.cfg.CloseOnStop <;>
        simp [Ticker.stopTrace, Ticker.stopCurActs, ht, hd, hc, Act.isWrite]
    · simp [Ticker.stopState]
  | resetReq d =>
    rw [Ticker.step_resetReq t d hstop] at hs
    rcases lt_or_eq_of_le (he d rfl) with hd | hd
    · rw [Ticker.handleReset_neg _ hd] at hs
      simp at hs
    · subst hd
      rw [Ticker.handleReset_zero] at hs
      simp only [Except.ok.injEq, Prod.mk.injEq] at hs
      obtain ⟨rfl, rfl⟩ := hs
      constructor
      · cases hd : t.cfg.DropTickOnReset <;>
          simp [Ticker.stopCurActs, ht, hd, Act.isWrite]
      · rfl
  | clockFired src tick =>
    rw [Ticker.step_clockFired t src tick hstop] at hs
    have hm : ¬ t.ticker = some src := by simp [ht]
    rw [if_neg hm] at hs
    simp only [Except.ok.injEq, Prod.mk.injEq] at hs
    obtain ⟨rfl, rfl⟩ := hs
    exact ⟨rfl, ht⟩

lemma Ticker.run_paused {t : Ticker} {evs : List Event} {t' : Ticker} {as : List Act}
    (ht : t.ticker = none) (hn : noPositiveReset evs = true)
    (hr : t.run evs = .ok (t', as)) :
    as.all (fun a => !a.isWrite) = true ∧ t'.ticker = none := by
  induction evs generalizing t as with
  | nil =>
    simp only [Ticker.run, Except.ok.injEq, Prod.mk.injEq] at hr
    obtain ⟨rfl, rfl⟩ := hr
    exact ⟨rfl, ht⟩
  | cons e es ih =>
    obtain ⟨he, hn2⟩ := noPositiveReset_cons hn
    cases hstep : t.step e with
    | error f =>
      rw [Ticker.run_cons_error hstep es] at hr
      simp at hr
    | ok r =>
      obtain ⟨t1, a1⟩ := r
      rw [Ticker.run_cons_ok hstep es] at hr
      cases hrun : t1.run es with
      | error f =>
        rw [hrun] at hr
        simp at hr
      | ok r2 =>
        obtain ⟨t2, a2⟩ := r2
        rw [hrun] at hr
        simp only [Except.ok.injEq, Prod.mk.injEq] at hr
        obtain ⟨rfl, rfl⟩ := hr
        obtain ⟨hw1, ht1⟩ := Ticker.step_paused ht he hstep
        obtain ⟨hw2, ht2⟩ := ih ht1 hn2 hrun
        exact ⟨by simp [List.all_append, hw1, hw2], ht2⟩

lemma TickerConfig.newTicker_inv {cfg : TickerConfig} {d : Int} {t : Ticker}
    (h : cfg.NewTicker d = .ok t) : t.Inv := by
  rcases lt_trichotomy d 0 with hd | hd | hd
  · simp [TickerConfig.NewTicker, Ticker.newTicker_neg _ hd, bind, Except.bind] at h
  · subst hd
    simp [TickerConfig.NewTicker, Ticker.newTicker_zero, bind, Except.bind,
          Ticker.eraseCur] at h
    obtain rfl := h.symm
    exact ⟨by simp, by simp, by simp [Ticker.eraseCur]⟩
  · simp [TickerConfig.NewTicker, Ticker.newTicker_pos _ hd, bind, Except.bind,
          Ticker.eraseCur] at h
    obtain rfl := h.symm
    exact ⟨by simp, by simp, by simp [Ticker.eraseCur]⟩

/-! Sample concrete states used by the witnesses. -/

/-- A running ticker with all config flags set, a live underlying clock
with id 3, and one buffered tick. -/
def activeT : Ticker :=
  { c := { buf := [7], closed := false }
    cfg := { CloseOnStop := true, DropTickOnReset := true, DropTickOnStop := true }
    ticker := some 3
    live := [3]
    nextClock := 4
    stopped := false }

/-- A running, paused ticker (no underlying clock) with default config and
one buffered tick. -/
def pausedT : Ticker :=
  { c := { buf := [7], closed := false }
    cfg := { CloseOnStop := false, DropTickOnReset := false, DropTickOnStop := false }
    ticker := none
    live := []
    nextClock := 1
    stopped := false }

/-- A running ticker with default config (all flags false), a live clock
with id 0, and one buffered tick. -/
def defaultT : Ticker :=
  { c := { buf := [7], closed := false }
    cfg := { CloseOnStop := false, DropTickOnReset := false, DropTickOnStop := false }
    ticker := some 0
    live := [0]
    nextClock := 1
    stopped := false }

/-- A stopped ticker. -/
def stoppedT : Ticker :=
  { c := { buf := [], closed := false }
    cfg := { CloseOnStop := false, DropTickOnReset := false, DropTickOnStop := false }
    ticker := none
    live := []
    nextClock := 1
    stopped := true }

/-! The claims. -/

/-- C1: on every clock-fire event the handler first discards any
unconsumed buffered timestamp and then places the new timestamp into the
one-slot buffer; the insert always finds room (the step returns `.ok`,
never a blocking fault) and leaves exactly one buffered timestamp; the
buffer invariant (at most one buffered value) holds after every
operation of the control loop and at construction. -/
theorem claim1_tick_buffer :
    (∀ (t : Ticker) (src : Nat) (tick : Nat),
      t.Inv → t.stopped = false → t.ticker = some src →
      t.step (Event.clockFired src tick) =
        .ok ({ t with c := { buf := [tick], closed := false } },
             [Act.drainSlot, Act.writeSlot tick]))
    ∧ (∀ (t t' : Ticker) (e : Event) (as : List Act),
        t.Inv → t.step e = .ok (t', as) → t'.Inv ∧ t'.c.buf.length ≤ 1)
    ∧ (∀ (cfg : TickerConfig) (d : Int) (t : Ticker),
        cfg.NewTicker d = .ok t → t.Inv ∧ t.c.buf.length ≤ 1) := by
  refine ⟨?_, ?_, ?_⟩
  · intro t src tick h hstop hm
    have hns : ¬ t.stopped = true := by simp [hstop]
    have hcl : t.c.closed = false := by
      cases hc : t.c.closed with
      | false => rfl
      | true => exact absurd (h.2.1 hc) hns
    rw [Ticker.step_clockFired t src tick hns, if_pos hm,
        Ticker.handleTick_ok t tick h.1 hcl]
  · intro t t' e as h hs
    have h' := Ticker.step_inv h hs
    exact ⟨h', h'.1⟩
  · intro cfg d t h
    have h' := TickerConfig.newTicker_inv h
    exact ⟨h', h'.1⟩

/-- Witness for C1 at a concrete running ticker with a stale buffered
tick: firing clock 3 with timestamp 9 drains the stale value 7 and
buffers 9. -/
theorem claim1_tick_buffer_witness :
    activeT.Inv ∧ activeT.stopped = false ∧ activeT.ticker = some 3 ∧
    activeT.step (Event.clockFired 3 9) =
      .ok ({ activeT with c := { buf := [9], closed := false } },
           [Act.drainSlot, Act.writeSlot 9]) :=
  ⟨by decide, by decide, by decide,
   claim1_tick_buffer.1 activeT 3 9 (by decide) (by decide) (by decide)⟩

/-- C2: processing a stop request leaves the loop in the Stopped state,
and from a Stopped state the control loop processes no further event and
emits no further action — in particular no timestamp is ever written to
the output slot and no value appears on the output channel after `Stop()`
returns. -/
theorem claim2_stopped_no_more_ticks :
    (∀ t : Ticker, ∃ t' : Ticker, ∃ as : List Act,
      t.handleStop = .ok (t', as) ∧ t'.stopped = true)
    ∧ (∀ (t : Ticker) (evs : List Event), t.stopped = true →
        t.run evs = .ok (t, []))
    ∧ (∀ (t t' : Ticker) (as : List Act), t.Stop = .ok (t', as) →
        ∀ evs : List Event, t'.run evs = .ok (t', [])) := by
  refine ⟨?_, ?_, ?_⟩
  · intro t
    exact ⟨t.stopState, t.stopTrace, Ticker.handleStop_eq t, rfl⟩
  · intro t evs h
    exact Ticker.run_stopped t evs h
  · intro t t' as hs evs
    by_cases hstop : t.stopped = true
    · unfold Ticker.Stop at hs
      rw [if_pos hstop] at hs
      simp only [Except.ok.injEq, Prod.mk.injEq] at hs
      obtain ⟨rfl, rfl⟩ := hs
      exact Ticker.run_stopped t evs hstop
    · unfold Ticker.Stop at hs
      rw [if_neg hstop, Ticker.handleStop_eq] at hs
      simp only [Except.ok.injEq, Prod.mk.injEq] at hs
      obtain ⟨rfl, rfl⟩ := hs
      exact Ticker.run_stopped _ evs rfl

/-- Witness for C2: a concrete stopped ticker ignores a later clock fire
and reset, emitting nothing; and after a concrete `Stop` no run of events
produces any action. -/
theorem claim2_stopped_no_more_ticks_witness :
    stoppedT.stopped = true ∧
    stoppedT.run [Event.clockFired 0 5, Event.resetReq 1] = .ok (stoppedT, []) ∧
    defaultT.Stop = .ok ({ defaultT with ticker := none, live := [], stopped := true },
                         [Act.stopClock 0, Act.ack]) ∧
    ({ defaultT with ticker := none, live := [], stopped := true } : Ticker).run
        [Event.clockFired 0 5, Event.stopReq] =
      .ok ({ defaultT with ticker := none, live := [], stopped := true }, []) :=
  ⟨rfl, claim2_stopped_no_more_ticks.2.1 stoppedT _ rfl, rfl,
   claim2_stopped_no_more_ticks.2.2 defaultT _ _ rfl _⟩

/-- C3: the stop handler performs exactly, and in this order: a drain of
the buffered tick iff `DropTickOnStop`, a close of the output channel iff
`CloseOnStop`, the release of the underlying clock, and only then the
completion signal to the `Stop` caller (the ack is the final action). -/
theorem claim3_stop_handler_order (t : Ticker) :
    t.handleStop = .ok (t.stopState, t.stopTrace)
    ∧ t.stopTrace =
        (if t.cfg.DropTickOnStop then [Act.drainSlot] else [])
          ++ (if t.cfg.CloseOnStop then [Act.closeChan] else [])
          ++ t.stopCurActs ++ [Act.ack]
    ∧ (Act.drainSlot ∈ t.stopTrace ↔ t.cfg.DropTickOnStop = true)
    ∧ (Act.closeChan ∈ t.stopTrace ↔ t.cfg.CloseOnStop = true)
    ∧ t.stopTrace.getLast? = some Act.ack
    ∧ t.stopState.ticker = none := by
  refine ⟨Ticker.handleStop_eq t, rfl, ?_, ?_, ?_, rfl⟩ <;>
    cases hd : t.cfg.DropTickOnStop <;> cases hc : t.cfg.CloseOnStop <;>
      cases hm : t.ticker <;>
        simp [Ticker.stopTrace, Ticker.stopCurActs, hd, hc, hm, List.getLast?_concat]

/-- C4: `Reset(d)` on a stopped ticker returns immediately with the state
unchanged; on a running ticker it is exactly the control loop applying
the reset, whose completion callback (the ack the caller waits on) comes
only after the optional drain and the clock replacement; and in all cases
either the reset is fully applied or it is fully skipped. -/
theorem claim4_reset_handshake (t : Ticker) (d : Int) :
    (t.stopped = true → t.Reset d = .ok (t, []))
    ∧ (t.stopped = false → t.Reset d = t.handleReset d)
    ∧ (t.Reset d = .ok (t, []) ∨ t.Reset d = t.handleReset d)
    ∧ (∀ (t' : Ticker) (as : List Act), t.handleReset d = .ok (t', as) →
        as.getLast? = some Act.ack) := by
  refine ⟨?_, ?_, ?_, ?_⟩
  · intro h
    unfold Ticker.Reset
    rw [if_pos h]
  · intro h
    unfold Ticker.Reset
    rw [if_neg (by simp [h])]
  · by_cases h : t.stopped = true
    · left
      unfold Ticker.Reset
      rw [if_pos h]
    · right
      unfold Ticker.Reset
      rw [if_neg h]
  · intro t' as h
    rcases lt_trichotomy d 0 with hd | hd | hd
    · rw [Ticker.handleReset_neg _ hd] at h
      simp at h
    · subst hd
      rw [Ticker.handleReset_zero] at h
      simp only [Except.ok.injEq, Prod.mk.injEq] at h
      obtain ⟨-, rfl⟩ := h
      simp [List.getLast?_concat]
    · rw [Ticker.handleReset_pos _ hd] at h
      simp only [Except.ok.injEq, Prod.mk.injEq] at h
      obtain ⟨-, rfl⟩ := h
      simp [List.getLast?_concat]

/-- Witness for C4: on the concrete stopped ticker `Reset(5)` is an exact
no-op, and on a concrete running ticker the applied reset's trace ends
with the completion ack. -/
theorem claim4_reset_handshake_witness :
    stoppedT.Reset 5 = .ok (stoppedT, [])
    ∧ [Act.stopClock 0, Act.startClock 1, Act.ack].getLast? = some Act.ack :=
  ⟨(claim4_reset_handshake stoppedT 5).1 rfl,
   (claim4_reset_handshake defaultT 5).2.2.2
     { defaultT with ticker := some 1, live := [1], nextClock := 2 }
     [Act.stopClock 0, Act.startClock 1, Act.ack] rfl⟩

/-- C5: for every non-negative period, the clock-replacement step
succeeds, leaves the underlying clock handle absent iff the period is
zero, stops the previous clock (if any) before any new clock is started
(visible in the emitted action order), and preserves the single-live-
clock invariant (the live set equals the handle's contents, so at most
one clock is ever live). -/
theorem claim5_clock_replacement (t : Ticker) (d : Int) (hd : 0 ≤ d) :
    ∃ t' : Ticker, ∃ as : List Act, t.newTicker d = .ok (t', as)
      ∧ (t'.ticker = none ↔ d = 0)
      ∧ as = t.stopCurActs ++ (if d = 0 then [] else [Act.startClock t.nextClock])
      ∧ (t.live = t.ticker.toList →
          t'.live = t'.ticker.toList ∧ t'.live.length ≤ 1) := by
  rcases eq_or_lt_of_le hd with hd0 | hd0
  · obtain rfl := hd0.symm
    refine ⟨_, _, Ticker.newTicker_zero t, by simp, by simp, ?_⟩
    intro h
    simp [Ticker.eraseCur_eq_nil h]
  · have hne : ¬ d = 0 := by omega
    refine ⟨_, _, Ticker.newTicker_pos t hd0, by simp [hne], by simp [hne], ?_⟩
    intro h
    simp [Ticker.eraseCur_eq_nil h]

/-- Witness for C5 at the concrete running ticker: replacing the clock
with period 5 stops clock 3 before starting clock 4, and with period 0
leaves no clock. -/
theorem claim5_clock_replacement_witness :
    (0 : Int) ≤ 5 ∧ (0 : Int) ≤ 0 ∧
    (∃ t' : Ticker, ∃ as : List Act, activeT.newTicker 5 = .ok (t', as)
      ∧ (t'.ticker = none ↔ (5 : Int) = 0)
      ∧ as = activeT.stopCurActs
          ++ (if (5 : Int) = 0 then [] else [Act.startClock activeT.nextClock])
      ∧ (activeT.live = activeT.ticker.toList →
          t'.live = t'.ticker.toList ∧ t'.live.length ≤ 1))
    ∧ (∃ t' : Ticker, ∃ as : List Act, activeT.newTicker 0 = .ok (t', as)
      ∧ (t'.ticker = none ↔ (0 : Int) = 0)
      ∧ as = activeT.stopCurActs
          ++ (if (0 : Int) = 0 then [] else [Act.startClock activeT.nextClock])
      ∧ (activeT.live = activeT.ticker.toList →
          t'.live = t'.ticker.toList ∧ t'.live.length ≤ 1)) :=
  ⟨by decide, by decide,
   claim5_clock_replacement activeT 5 (by decide),
   claim5_clock_replacement activeT 0 (by decide)⟩

/-- C6: on a non-stopped ticker `Reset(0)` completes and releases the
underlying clock; and from any state with no underlying clock, as long as
no reset with a positive period is processed, the control loop writes
nothing into the output slot. -/
theorem claim6_pause :
    (∀ t : Ticker, t.stopped = false →
      ∃ t' : Ticker, ∃ as : List Act, t.Reset 0 = .ok (t', as) ∧ t'.ticker = none)
    ∧ (∀ (t t' : Ticker) (evs : List Event) (as : List Act),
        t.ticker = none → noPositiveReset evs = true →
        t.run evs = .ok (t', as) →
        as.all (fun a => !a.isWrite) = true) := by
  constructor
  · intro t h
    unfold Ticker.Reset
    rw [if_neg (by simp [h]), Ticker.handleReset_zero]
    exact ⟨_, _, rfl, rfl⟩
  · intro t t' evs as ht hn hr
    exact (Ticker.run_paused ht hn hr).1

/-- Witness for C6: a concrete paused ticker, fed a stray clock fire, a
stop and a zero reset, emits no slot write. -/
theorem claim6_pause_witness :
    pausedT.stopped = false ∧
    (∃ t' : Ticker, ∃ as : List Act, pausedT.Reset 0 = .ok (t', as) ∧ t'.ticker = none) ∧
    ([Act.ack] : List Act).all (fun a => !a.isWrite) = true :=
  ⟨rfl, claim6_pause.1 pausedT rfl,
   claim6_pause.2 pausedT { pausedT with stopped := true }
     [Event.clockFired 0 5, Event.stopReq, Event.resetReq 0] [Act.ack]
     rfl (by decide) rfl⟩

/-- C7: the reset handler discards a buffered-but-unconsumed tick exactly
when `DropTickOnReset` is set: with the flag true the slot is empty when
`Reset` returns, with it false the buffered tick is left intact for the
consumer. -/
theorem claim7_reset_drop_policy (t : Ticker) (d : Int) (t' : Ticker) (as : List Act)
    (hb : t.c.buf.length ≤ 1)
    (h : t.handleReset d = .ok (t', as)) :
    (t.cfg.DropTickOnReset = true → t'.c.buf = [])
    ∧ (t.cfg.DropTickOnReset = false → t'.c.buf = t.c.buf) := by
  have htail : t.c.buf.tail = [] := tail_eq_nil_of_length_le_one hb
  rcases lt_trichotomy d 0 with hd | hd | hd
  · rw [Ticker.handleReset_neg _ hd] at h
    simp at h
  · subst hd
    rw [Ticker.handleReset_zero] at h
    simp only [Except.ok.injEq, Prod.mk.injEq] at h
    constructor
    · intro hflag
      simp [← h.1, hflag, TickChan.tryRecv, htail]
    · intro hflag
      simp [← h.1, hflag]
  · rw [Ticker.handleReset_pos _ hd] at h
    simp only [Except.ok.injEq, Prod.mk.injEq] at h
    constructor
    · intro hflag
      simp [← h.1, hflag, TickChan.tryRecv, htail]
    · intro hflag
      simp [← h.1, hflag]

/-- Witness for C7 at concrete tickers: with `DropTickOnReset` set the
buffered tick 7 is gone after the reset; with it unset the tick is left
in the slot. -/
theorem claim7_reset_drop_policy_witness :
    activeT.c.buf.length ≤ 1 ∧ pausedT.c.buf.length ≤ 1
    ∧ ((activeT.cfg.DropTickOnReset = true →
          ({ activeT with c := { buf := [], closed := false }, ticker := some 4, live := [4], nextClock := 5 } : Ticker).c.buf = [])
        ∧ (activeT.cfg.DropTickOnReset = false →
          ({ activeT with c := { buf := [], closed := false }, ticker := some 4, live := [4], nextClock := 5 } : Ticker).c.buf = activeT.c.buf))
    ∧ ((pausedT.cfg.DropTickOnReset = true →
          ({ pausedT with ticker := some 1, live := [1], nextClock := 2 } : Ticker).c.buf = [])
        ∧ (pausedT.cfg.DropTickOnReset = false →
          ({ pausedT with ticker := some 1, live := [1], nextClock := 2 } : Ticker).c.buf = pausedT.c.buf)) :=
  ⟨by decide, by decide,
   claim7_reset_drop_policy activeT 5 _
     [Act.drainSlot, Act.stopClock 3, Act.startClock 4, Act.ack] (by decide) rfl,
   claim7_reset_drop_policy pausedT 5 _
     [Act.startClock 1, Act.ack] (by decide) rfl⟩

/-- C8: `Stop` is idempotent: the first call performs the single teardown
and signals completion (ack) as its last action; a later call performs no
second teardown (it emits nothing), returns the same state, and still
returns to its caller after the already-finished teardown. -/
theorem claim8_stop_idempotent (t : Ticker) :
    ∃ t' : Ticker, ∃ as : List Act, t.Stop = .ok (t', as)
      ∧ t'.stopped = true
      ∧ t'.Stop = .ok (t', [])
      ∧ (t.stopped = false → as.getLast? = some Act.ack)
      ∧ (t.stopped = true → t' = t ∧ as = []) := by
  by_cases hstop : t.stopped = true
  · refine ⟨t, [], ?_, hstop, ?_, ?_, fun _ => ⟨rfl, rfl⟩⟩
    · unfold Ticker.Stop
      rw [if_pos hstop]
    · unfold Ticker.Stop
      rw [if_pos hstop]
    · intro hf
      exact absurd hstop (by simp [hf])
  · have hss : t.stopState.stopped = true := rfl
    refine ⟨t.stopState, t.stopTrace, ?_, hss, ?_, ?_, fun hf => absurd hf hstop⟩
    · unfold Ticker.Stop
      rw [if_neg hstop]
      exact Ticker.handleStop_eq t
    · unfold Ticker.Stop
      rw [if_pos hss]
    · intro _
      unfold Ticker.stopTrace
      exact List.getLast?_concat _

/-- C9: a strictly negative period reaches the non-zero branch of
`newTicker` and hits the `time.NewTicker` panic: the constructor panics
at the call site, while `Reset(d)` on a running ticker makes the reset
handler — executed by the control-loop goroutine — panic. -/
theorem claim9_negative_period (d : Int) (hd : d < 0) :
    NewTicker d = .error .negativePeriod
    ∧ (∀ cfg : TickerConfig, cfg.NewTicker d = .error .negativePeriod)
    ∧ (∀ t : Ticker, t.stopped = false →
        t.step (Event.resetReq d) = t.handleReset d
        ∧ t.handleReset d = .error .negativePeriod
        ∧ t.Reset d = .error .negativePeriod) := by
  have hcfg : ∀ cfg : TickerConfig, cfg.NewTicker d = .error .negativePeriod := by
    intro cfg
    simp [TickerConfig.NewTicker, Ticker.newTicker_neg _ hd, bind, Except.bind]
  refine ⟨hcfg _, hcfg, ?_⟩
  intro t h
  have hns : ¬ t.stopped = true := by simp [h]
  refine ⟨Ticker.step_resetReq t d hns, Ticker.handleReset_neg _ hd, ?_⟩
  unfold Ticker.Reset
  rw [if_neg hns, Ticker.handleReset_neg _ hd]

/-- Witness for C9 at the concrete period -1 nanosecond. -/
theorem claim9_negative_period_witness :
    (-1 : Int) < 0
    ∧ NewTicker (-1) = .error .negativePeriod
    ∧ defaultT.Reset (-1) = .error .negativePeriod :=
  ⟨by decide, (claim9_negative_period (-1) (by decide)).1,
   ((claim9_negative_period (-1) (by decide)).2.2 defaultT rfl).2.2⟩

/-- C10: from any state satisfying the control-loop invariant, no run of
the loop ever attempts a send on the closed output channel (the
send-on-closed panic is unreachable); the close, when configured, is
performed by the stop handler, which terminates the loop in the same
step. -/
theorem claim10_send_on_closed_unreachable :
    (∀ (t : Ticker) (evs : List Event), t.Inv →
      t.run evs ≠ .error .sendOnClosed)
    ∧ (∀ t : Ticker, t.cfg.CloseOnStop = true →
        t.handleStop = .ok (t.stopState, t.stopTrace)
        ∧ Act.closeChan ∈ t.stopTrace
        ∧ t.stopState.stopped = true
        ∧ t.stopState.c.closed = true) := by
  constructor
  · intro t evs h hr
    exact absurd (Ticker.run_fault h hr) (by decide)
  · intro t hc
    refine ⟨Ticker.handleStop_eq t, ?_, rfl, ?_⟩
    · cases hd : t.cfg.DropTickOnStop <;> simp [Ticker.stopTrace, hd, hc]
    · simp [Ticker.stopState, hc]

/-- Witness for C10: the concrete running ticker with `CloseOnStop` set:
a run that stops and then sees a stray clock fire does not hit the
send-on-closed panic, and its stop trace contains the close. -/
theorem claim10_send_on_closed_unreachable_witness :
    activeT.Inv ∧ activeT.cfg.CloseOnStop = true
    ∧ activeT.run [Event.stopReq, Event.clockFired 3 9] ≠ .error .sendOnClosed
    ∧ Act.closeChan ∈ activeT.stopTrace :=
  ⟨by decide, rfl,
   claim10_send_on_closed_unreachable.1 activeT _ (by decide),
   (claim10_send_on_closed_unreachable.2 activeT rfl).2.1⟩

/-- Witness for C8 at the concrete running default-config ticker. -/
theorem claim8_stop_idempotent_witness :
    ∃ t' : Ticker, ∃ as : List Act, defaultT.Stop = .ok (t', as)
      ∧ t'.stopped = true
      ∧ t'.Stop = .ok (t', [])
      ∧ (defaultT.stopped = false → as.getLast? = some Act.ack)
      ∧ (defaultT.stopped = true → t' = defaultT ∧ as = []) :=
  claim8_stop_idempotent defaultT
